import Mathlib

/-!
Shallow embedding of the Code Tracker service
(src/src/app/main.py, models.py, schemas.py) and verification of its
natural-language specification.

Modelling conventions:
* Text is `String` except snapshot content, which is `List Char` so that
  the whitespace-compression function can be reasoned about structurally.
* A Python `datetime` is a `DateTime` structure: `wall` is the wall-clock
  value in microseconds (the resolution of Python datetimes) and `offset`
  is the UTC offset in microseconds, `none` for a timezone-naive value.
* The database table `tracked_files` is a `List TrackedFile` in insertion
  order inside a state `St`; `nextId` models the auto-increment primary
  key and `now` models the strictly increasing `datetime.utcnow` clock
  used for the `created_at` column default.
* A persistence-layer fault is injected through an explicit
  `fault : Option String` argument: `some cause` means `db.commit()`
  raises an exception whose description is `cause`, `none` means the
  store works normally.  The `except` branch of `create_tracked_file`
  (rollback plus HTTP 500) is modelled on that argument.
-/

namespace CodeTracker

/-- Whitespace class used by the service: the characters matched by the
regex class in `re.sub` and stripped by `str.strip` (ASCII part:
space, tab, newline, carriage return, vertical tab, form feed). -/
def isPySpace (c : Char) : Bool :=
  c == ' ' || c == '\t' || c == '\n' || c == '\r' || c == '\x0b' || c == '\x0c'

/-- One pass of the regex substitution collapsing whitespace runs:
each maximal run of whitespace characters is replaced by a single
space.  The boolean flag records whether we are inside a run whose
replacement space has already been emitted. -/
def collapseWS : List Char → Bool → List Char
  | [], _ => []
  | c :: cs, inRun =>
    if isPySpace c then
      match inRun with
      | true => collapseWS cs true
      | false => ' ' :: collapseWS cs true
    else c :: collapseWS cs false

/-- Python `str.strip()`: remove leading and trailing whitespace. -/
def pyStrip (l : List Char) : List Char :=
  ((l.dropWhile isPySpace).reverse.dropWhile isPySpace).reverse

/-- main.py lines 42-44: collapse whitespace runs to single
spaces, then strip. -/
def compress_content (raw : List Char) : List Char :=
  pyStrip (collapseWS raw false)

/-- A Python `datetime`: wall-clock value in microseconds plus an
optional UTC offset in microseconds (`none` = timezone-naive). -/
structure DateTime where
  wall : Int
  offset : Option Int
deriving DecidableEq

/-- main.py lines 56-60: naive datetimes are returned
unchanged; aware datetimes are converted to UTC (wall minus offset)
and the offset is dropped. -/
def normalize_timestamp (dt : DateTime) : DateTime :=
  match dt.offset with
  | none => dt
  | some o => { wall := dt.wall - o, offset := none }

/-- The UTC instant a datetime denotes, reading a naive value as UTC. -/
def utcInstant (dt : DateTime) : Int :=
  dt.wall - dt.offset.getD 0

/-- models.py: one row of the `tracked_files` table. -/
structure TrackedFile where
  id : Nat
  fileName : String
  filePath : String
  key : String
  fullContent : List Char
  timestamp : DateTime
  created_at : Nat
deriving DecidableEq

/-- schemas.py: request body of the create endpoint. -/
structure FileCreate where
  fileName : String
  filePath : String
  fullContent : List Char
  timestamp : DateTime
deriving DecidableEq

/-- schemas.py: the response projection of a row (the `key`
column is not echoed back). -/
structure FileResponse where
  id : Nat
  fileName : String
  filePath : String
  fullContent : List Char
  timestamp : DateTime
  created_at : Nat
deriving DecidableEq

/-- `FileResponse.model_validate(row)`. -/
def FileResponse.ofRow (f : TrackedFile) : FileResponse :=
  { id := f.id, fileName := f.fileName, filePath := f.filePath,
    fullContent := f.fullContent, timestamp := f.timestamp,
    created_at := f.created_at }

/-- Store state: rows in insertion order, the next auto-increment id,
and the monotone clock backing the `created_at` default. -/
structure St where
  rows : List TrackedFile
  nextId : Nat
  now : Nat
deriving DecidableEq

/-- A freshly created store. -/
def emptySt : St := { rows := [], nextId := 1, now := 0 }

/-- Microseconds per second. -/
def usPerSecond : Int := 1000000

/-- `timedelta(seconds=5)` from main.py line 101, in microseconds. -/
def dedupWindow : Int := 5 * usPerSecond

/-- The filter of the duplicate-lookup query (main.py lines 107-112):
exact match on fileName and filePath and timestamp between the window
bounds (both rows and bounds are naive, so wall values compare). -/
def dupMatchB (fileName filePath : String) (normalized_ts : DateTime)
    (f : TrackedFile) : Bool :=
  f.fileName == fileName && f.filePath == filePath &&
  decide (normalized_ts.wall - dedupWindow ≤ f.timestamp.wall) &&
  decide (f.timestamp.wall ≤ normalized_ts.wall + dedupWindow)

/-- Propositional form of `dupMatchB`. -/
def dupMatch (fileName filePath : String) (normalized_ts : DateTime)
    (f : TrackedFile) : Prop :=
  f.fileName = fileName ∧ f.filePath = filePath ∧
  normalized_ts.wall - dedupWindow ≤ f.timestamp.wall ∧
  f.timestamp.wall ≤ normalized_ts.wall + dedupWindow

/-- One step of scanning for the row that `ORDER BY timestamp DESC`
followed by `.first()` returns: keep the row with the larger
timestamp, keeping the earlier row on ties (the tie-break is
arbitrary at the store level; this fixes one choice). -/
def latestStep (acc : Option TrackedFile) (f : TrackedFile) :
    Option TrackedFile :=
  match acc with
  | none => some f
  | some g => if g.timestamp.wall < f.timestamp.wall then some f else some g

/-- The first row under timestamp-descending order, `none` on no rows. -/
def latestByTimestamp (l : List TrackedFile) : Option TrackedFile :=
  l.foldl latestStep none

/-- main.py lines 107-114: the duplicate lookup
`db.query(TrackedFile).filter(...).order_by(timestamp.desc()).first()`. -/
def findDuplicate (rows : List TrackedFile) (fileName filePath : String)
    (normalized_ts : DateTime) : Option TrackedFile :=
  latestByTimestamp (rows.filter (dupMatchB fileName filePath normalized_ts))

/-- Outcome of the create endpoint: a JSON response with an HTTP status,
message and snapshot payload, or an HTTPException with status and
detail. -/
inductive CreateOut where
  | ok (status : Nat) (message : String) (data : FileResponse)
  | err (status : Nat) (detail : String)
deriving DecidableEq

/-- main.py lines 93-162: the create-snapshot handler body.
Compress the content, normalize the timestamp, look for a duplicate in
the window; return the existing row with 200 and no write, or insert
one row and return it with 201.  `fault = some cause` injects a
persistence-layer exception at commit time; the `except` branch rolls
the transaction back (no row is kept) and raises HTTP 500 with detail
`Failed to save file: cause`. -/
def create_tracked_file (st : St) (payload : FileCreate) (api_key : String)
    (fault : Option String) : CreateOut × St :=
  let compressed_content := compress_content payload.fullContent
  let normalized_ts := normalize_timestamp payload.timestamp
  match findDuplicate st.rows payload.fileName payload.filePath normalized_ts with
  | some existing =>
      (CreateOut.ok 200 "File snapshot already stored" (FileResponse.ofRow existing), st)
  | none =>
      match fault with
      | some cause =>
          (CreateOut.err 500 ("Failed to save file: " ++ cause), st)
      | none =>
          let tracked_file : TrackedFile :=
            { id := st.nextId, fileName := payload.fileName,
              filePath := payload.filePath, key := api_key,
              fullContent := compressed_content, timestamp := normalized_ts,
              created_at := st.now }
          (CreateOut.ok 201 "File snapshot created" (FileResponse.ofRow tracked_file),
           { rows := st.rows ++ [tracked_file], nextId := st.nextId + 1,
             now := st.now + 1 })

/-- The row inserted by a successful non-duplicate create call. -/
def insertedRow (st : St) (payload : FileCreate) (api_key : String) :
    TrackedFile :=
  { id := st.nextId, fileName := payload.fileName, filePath := payload.filePath,
    key := api_key, fullContent := compress_content payload.fullContent,
    timestamp := normalize_timestamp payload.timestamp, created_at := st.now }

/-- main.py lines 47-54: extract the API key and enforce its
presence.  `if not x_api_key` rejects both an absent header and an
empty header value with HTTP 401. -/
def require_api_key (x_api_key : Option String) : Except (Nat × String) String :=
  match x_api_key with
  | none => Except.error (401, "Missing x-api-key header")
  | some k =>
      if k = "" then Except.error (401, "Missing x-api-key header")
      else Except.ok k

/-- The create endpoint including the API-key dependency: with no valid
key the handler body never runs and the store is untouched. -/
def handle_create (st : St) (header : Option String) (payload : FileCreate)
    (fault : Option String) : CreateOut × St :=
  match require_api_key header with
  | Except.error e => (CreateOut.err e.1 e.2, st)
  | Except.ok api_key => create_tracked_file st payload api_key fault

/-- Ordering used by the list query: `created_at` descending. -/
def createdAtDesc (a b : TrackedFile) : Prop :=
  b.created_at ≤ a.created_at

instance : DecidableRel createdAtDesc := fun a b =>
  inferInstanceAs (Decidable (b.created_at ≤ a.created_at))

instance : IsTotal TrackedFile createdAtDesc :=
  ⟨fun a b => (Nat.le_total b.created_at a.created_at).imp id id⟩

instance : IsTrans TrackedFile createdAtDesc :=
  ⟨fun _ _ _ hab hbc => Nat.le_trans hbc hab⟩

/-- Response of the list endpoint. -/
structure ListOut where
  status : Nat
  message : String
  data : List FileResponse
deriving DecidableEq

/-- main.py lines 170-189: rows with the caller's key,
ordered by `created_at` descending, projected to responses. -/
def list_tracked_files (st : St) (api_key : String) : ListOut :=
  let rows :=
    (st.rows.filter (fun f => f.key == api_key)).insertionSort createdAtDesc
  { status := 200,
    message := toString rows.length ++ " file snapshots found",
    data := rows.map FileResponse.ofRow }

/-- Outcome of the list endpoint including the API-key dependency. -/
inductive ListResult where
  | ok (r : ListOut)
  | err (status : Nat) (detail : String)
deriving DecidableEq

/-- The list endpoint: a missing or empty key yields 401 and the store
is never consulted. -/
def handle_list (st : St) (header : Option String) : ListResult :=
  match require_api_key header with
  | Except.error e => ListResult.err e.1 e.2
  | Except.ok api_key => ListResult.ok (list_tracked_files st api_key)

/-- Per-row invariant: the content is the compression of some raw text
and the timestamp is the normalization of some client timestamp. -/
def RowOk (f : TrackedFile) : Prop :=
  (∃ raw, f.fullContent = compress_content raw) ∧
  (∃ dt, f.timestamp = normalize_timestamp dt)

/-- Store invariant: every row satisfies `RowOk`. -/
def Inv (st : St) : Prop :=
  ∀ f ∈ st.rows, RowOk f

/-- No two adjacent whitespace characters. -/
def noTwoWS (a b : Char) : Prop :=
  isPySpace a = false ∨ isPySpace b = false

/-- The first character, if any, is not whitespace. -/
def headNotWS (l : List Char) : Prop :=
  ∀ c, l.head? = some c → isPySpace c = false

/-- The last character, if any, is not whitespace. -/
def lastNotWS (l : List Char) : Prop :=
  ∀ c, l.getLast? = some c → isPySpace c = false

/-- Every whitespace character in the list is a plain space. -/
def allWSSpace (l : List Char) : Prop :=
  ∀ c ∈ l, isPySpace c = true → c = ' '

/-- A naive timestamp at a whole number of seconds. -/
def dtNaive (s : Int) : DateTime :=
  { wall := s * usPerSecond, offset := none }

/-- An offset-aware timestamp: wall clock at `s` seconds, offset `o`
seconds. -/
def dtAware (s o : Int) : DateTime :=
  { wall := s * usPerSecond, offset := some (o * usPerSecond) }

/-- Concrete payload used by witnesses. -/
def pA : FileCreate :=
  { fileName := "a.py", filePath := "/tmp/a.py",
    fullContent := "x   y\n\nz".toList, timestamp := dtNaive 100 }

/-- Concrete payload: same file as `pA`, different content, 4 seconds
later. -/
def pB : FileCreate :=
  { fileName := "a.py", filePath := "/tmp/a.py",
    fullContent := "totally different".toList, timestamp := dtNaive 104 }

/-- Concrete payload for a second, unrelated file. -/
def pD : FileCreate :=
  { fileName := "b.py", filePath := "/tmp/b.py",
    fullContent := "other".toList, timestamp := dtNaive 200 }

/-- Store holding the row created from `pA` under key K1. -/
def stA : St := (create_tracked_file emptySt pA "K1" none).2

/-- Store holding the rows created from `pA` (key K1) and `pD`
(key K2). -/
def stB : St := (create_tracked_file stA pD "K2" none).2

/-! ### Lemmas about the duplicate lookup -/

theorem latestStep_ne_none (acc : Option TrackedFile) (f : TrackedFile) :
    latestStep acc f ≠ none := by
  cases acc with
  | none => simp [latestStep]
  | some g =>
      simp only [latestStep]
      split <;> simp

theorem foldl_latestStep_eq_none (l : List TrackedFile) :
    ∀ acc, l.foldl latestStep acc = none ↔ (acc = none ∧ l = []) := by
  induction l with
  | nil => intro acc; simp
  | cons f t ih =>
      intro acc
      simp only [List.foldl_cons, ih (latestStep acc f)]
      simp [latestStep_ne_none acc f]

theorem foldl_latestStep_spec (l : List TrackedFile) :
    ∀ acc g, l.foldl latestStep acc = some g →
      (acc = some g ∨ g ∈ l) ∧
      (∀ a, acc = some a → a.timestamp.wall ≤ g.timestamp.wall) ∧
      (∀ f ∈ l, f.timestamp.wall ≤ g.timestamp.wall) := by
  induction l with
  | nil =>
      intro acc g h
      simp only [List.foldl_nil] at h
      refine ⟨Or.inl h, ?_, by simp⟩
      intro a ha
      rw [ha] at h
      cases h
      exact le_refl _
  | cons f t ih =>
      intro acc g h
      simp only [List.foldl_cons] at h
      obtain ⟨hmem, hacc, hall⟩ := ih (latestStep acc f) g h
      have hstep : ∃ a, latestStep acc f = some a ∧
          f.timestamp.wall ≤ a.timestamp.wall ∧
          (∀ b, acc = some b → b.timestamp.wall ≤ a.timestamp.wall) ∧
          (a = f ∨ acc = some a) := by
        cases acc with
        | none =>
            exact ⟨f, rfl, le_refl _, by simp, Or.inl rfl⟩
        | some b =>
            simp only [latestStep]
            by_cases hlt : b.timestamp.wall < f.timestamp.wall
            · refine ⟨f, by simp [hlt], le_refl _, ?_, Or.inl rfl⟩
              intro b' hb'
              cases hb'
              exact le_of_lt hlt
            · refine ⟨b, by simp [hlt], le_of_not_lt hlt, ?_, Or.inr rfl⟩
              intro b' hb'
              cases hb'
              exact le_refl _
      obtain ⟨a, ha, hfa, hba, hcase⟩ := hstep
      have hag : a.timestamp.wall ≤ g.timestamp.wall := hacc a ha
      refine ⟨?_, ?_, ?_⟩
      · rcases hmem with hm | hm
        · rw [ha] at hm
          cases hm
          rcases hcase with rfl | hc
          · exact Or.inr (List.mem_cons_self _ _)
          · exact Or.inl hc
        · exact Or.inr (List.mem_cons_of_mem _ hm)
      · intro b hb
        exact le_trans (hba b hb) hag
      · intro x hx
        rcases List.mem_cons.mp hx with rfl | hx'
        · exact le_trans hfa hag
        · exact hall x hx'

theorem latestByTimestamp_eq_none (l : List TrackedFile) :
    latestByTimestamp l = none ↔ l = [] := by
  simp [latestByTimestamp, foldl_latestStep_eq_none]

theorem latestByTimestamp_spec (l : List TrackedFile) (g : TrackedFile)
    (h : latestByTimestamp l = some g) :
    g ∈ l ∧ ∀ f ∈ l, f.timestamp.wall ≤ g.timestamp.wall := by
  obtain ⟨hmem, _, hall⟩ := foldl_latestStep_spec l none g h
  rcases hmem with hm | hm
  · cases hm
  · exact ⟨hm, hall⟩

theorem dupMatchB_iff (fileName filePath : String) (ts : DateTime)
    (f : TrackedFile) :
    dupMatchB fileName filePath ts f = true ↔ dupMatch fileName filePath ts f := by
  simp [dupMatchB, dupMatch, and_assoc]

theorem findDuplicate_eq_none_iff (rows : List TrackedFile)
    (fileName filePath : String) (ts : DateTime) :
    findDuplicate rows fileName filePath ts = none ↔
      ∀ f ∈ rows, ¬ dupMatch fileName filePath ts f := by
  rw [findDuplicate, latestByTimestamp_eq_none, List.filter_eq_nil_iff]
  constructor
  · intro h f hf hm
    exact h f hf ((dupMatchB_iff fileName filePath ts f).mpr hm)
  · intro h f hf hb
    exact h f hf ((dupMatchB_iff fileName filePath ts f).mp hb)

theorem findDuplicate_eq_some (rows : List TrackedFile)
    (fileName filePath : String) (ts : DateTime) (g : TrackedFile)
    (h : findDuplicate rows fileName filePath ts = some g) :
    g ∈ rows ∧ dupMatch fileName filePath ts g ∧
      ∀ f ∈ rows, dupMatch fileName filePath ts f →
        f.timestamp.wall ≤ g.timestamp.wall := by
  rw [findDuplicate] at h
  obtain ⟨hmem, hall⟩ := latestByTimestamp_spec _ g h
  rw [List.mem_filter] at hmem
  refine ⟨hmem.1, (dupMatchB_iff fileName filePath ts g).mp hmem.2, ?_⟩
  intro f hf hm
  exact hall f (List.mem_filter.mpr
    ⟨hf, (dupMatchB_iff fileName filePath ts f).mpr hm⟩)

/-! ### Case analysis of the create handler -/

theorem create_tracked_file_dup (st : St) (p : FileCreate) (k : String)
    (fault : Option String) (e : TrackedFile)
    (h : findDuplicate st.rows p.fileName p.filePath
        (normalize_timestamp p.timestamp) = some e) :
    create_tracked_file st p k fault =
      (CreateOut.ok 200 "File snapshot already stored" (FileResponse.ofRow e), st) := by
  simp only [create_tracked_file, h]

theorem create_tracked_file_fault (st : St) (p : FileCreate) (k : String)
    (cause : String)
    (h : findDuplicate st.rows p.fileName p.filePath
        (normalize_timestamp p.timestamp) = none) :
    create_tracked_file st p k (some cause) =
      (CreateOut.err 500 ("Failed to save file: " ++ cause), st) := by
  simp only [create_tracked_file, h]

theorem create_tracked_file_new (st : St) (p : FileCreate) (k : String)
    (h : findDuplicate st.rows p.fileName p.filePath
        (normalize_timestamp p.timestamp) = none) :
    create_tracked_file st p k none =
      (CreateOut.ok 201 "File snapshot created"
        (FileResponse.ofRow (insertedRow st p k)),
       { rows := st.rows ++ [insertedRow st p k], nextId := st.nextId + 1,
         now := st.now + 1 }) := by
  simp only [create_tracked_file, h, insertedRow]

/-! ### Lemmas about whitespace compression -/

theorem collapseWS_cons_ws_true (c : Char) (cs : List Char)
    (h : isPySpace c = true) :
    collapseWS (c :: cs) true = collapseWS cs true := by
  simp [collapseWS, h]

theorem collapseWS_cons_ws_false (c : Char) (cs : List Char)
    (h : isPySpace c = true) :
    collapseWS (c :: cs) false = ' ' :: collapseWS cs true := by
  simp [collapseWS, h]

theorem collapseWS_cons_not_ws (c : Char) (cs : List Char) (b : Bool)
    (h : isPySpace c = false) :
    collapseWS (c :: cs) b = c :: collapseWS cs false := by
  simp [collapseWS, h]

theorem mem_collapseWS_space (l : List Char) :
    ∀ (b : Bool) (c : Char), c ∈ collapseWS l b → isPySpace c = true → c = ' ' := by
  induction l with
  | nil => intro b c hc; simp [collapseWS] at hc
  | cons a t ih =>
      intro b c hc hws
      by_cases ha : isPySpace a = true
      · cases b with
        | true =>
            rw [collapseWS_cons_ws_true a t ha] at hc
            exact ih true c hc hws
        | false =>
            rw [collapseWS_cons_ws_false a t ha] at hc
            rcases List.mem_cons.mp hc with rfl | hc'
            · rfl
            · exact ih true c hc' hws
      · rw [collapseWS_cons_not_ws a t b (by simpa using ha)] at hc
        rcases List.mem_cons.mp hc with rfl | hc'
        · rw [hws] at ha; cases ha rfl
        · exact ih false c hc' hws

theorem collapseWS_head_true (l : List Char) :
    ∀ c, (collapseWS l true).head? = some c → isPySpace c = false := by
  induction l with
  | nil => intro c hc; simp [collapseWS] at hc
  | cons a t ih =>
      intro c hc
      by_cases ha : isPySpace a = true
      · rw [collapseWS_cons_ws_true a t ha] at hc
        exact ih c hc
      · rw [collapseWS_cons_not_ws a t true (by simpa using ha)] at hc
        simp only [List.head?_cons, Option.some.injEq] at hc
        subst hc
        simpa using ha

theorem collapseWS_chain (l : List Char) :
    ∀ b : Bool, (collapseWS l b).Chain' noTwoWS := by
  induction l with
  | nil => intro b; simp [collapseWS]
  | cons a t ih =>
      intro b
      by_cases ha : isPySpace a = true
      · cases b with
        | true =>
            rw [collapseWS_cons_ws_true a t ha]
            exact ih true
        | false =>
            rw [collapseWS_cons_ws_false a t ha]
            rw [List.chain'_cons']
            refine ⟨?_, ih true⟩
            intro y hy
            exact Or.inr (collapseWS_head_true t y hy)
      · rw [collapseWS_cons_not_ws a t b (by simpa using ha)]
        rw [List.chain'_cons']
        refine ⟨?_, ih false⟩
        intro y _
        exact Or.inl (by simpa using ha)

theorem head_dropWhile_not (l : List Char) :
    ∀ c, ((l.dropWhile isPySpace).head? = some c) → isPySpace c = false := by
  induction l with
  | nil => intro c hc; simp [List.dropWhile] at hc
  | cons a t ih =>
      intro c hc
      by_cases ha : isPySpace a = true
      · rw [List.dropWhile_cons_of_pos ha] at hc
        exact ih c hc
      · rw [List.dropWhile_cons_of_neg ha] at hc
        simp only [List.head?_cons, Option.some.injEq] at hc
        subst hc
        simpa using ha

theorem reverse_dropWhile_isPrefix (m : List Char) :
    ∃ t, ((m.reverse.dropWhile isPySpace).reverse) ++ t = m := by
  obtain ⟨t, ht⟩ := List.dropWhile_suffix (l := m.reverse) (p := isPySpace)
  refine ⟨t.reverse, ?_⟩
  have h2 := congrArg List.reverse ht
  rw [List.reverse_append, List.reverse_reverse] at h2
  exact h2

theorem headNotWS_pyStrip (l : List Char) : headNotWS (pyStrip l) := by
  intro c hc
  obtain ⟨t, ht⟩ := reverse_dropWhile_isPrefix (l.dropWhile isPySpace)
  apply head_dropWhile_not l c
  rw [← ht]
  unfold pyStrip at hc
  cases hrev : ((l.dropWhile isPySpace).reverse.dropWhile isPySpace).reverse with
  | nil => rw [hrev] at hc; simp at hc
  | cons x xs =>
      rw [hrev] at hc
      simp only [List.head?_cons, Option.some.injEq] at hc
      subst hc
      simp

theorem lastNotWS_pyStrip (l : List Char) : lastNotWS (pyStrip l) := by
  intro c hc
  unfold pyStrip at hc
  rw [List.getLast?_reverse] at hc
  exact head_dropWhile_not (l.dropWhile isPySpace).reverse c hc

theorem mem_pyStrip (l : List Char) (c : Char) (hc : c ∈ pyStrip l) : c ∈ l := by
  unfold pyStrip at hc
  rw [List.mem_reverse] at hc
  have h1 : c ∈ (l.dropWhile isPySpace).reverse :=
    (List.dropWhile_sublist _).subset hc
  rw [List.mem_reverse] at h1
  exact (List.dropWhile_sublist _).subset h1

theorem chain'_pyStrip (l : List Char) (h : l.Chain' noTwoWS) :
    (pyStrip l).Chain' noTwoWS := by
  have hm : (l.dropWhile isPySpace).Chain' noTwoWS :=
    h.suffix (List.dropWhile_suffix _)
  have hflip : ((l.dropWhile isPySpace).reverse).Chain' (flip noTwoWS) :=
    List.chain'_reverse.mpr (hm.imp (fun a b hab => hab))
  have hx : (((l.dropWhile isPySpace).reverse).dropWhile isPySpace).Chain'
      (flip noTwoWS) :=
    hflip.suffix (List.dropWhile_suffix _)
  exact List.chain'_reverse.mpr hx

theorem collapseWS_fixed (l : List Char) :
    ∀ b : Bool, l.Chain' noTwoWS → allWSSpace l →
      (b = true → headNotWS l) → collapseWS l b = l := by
  induction l with
  | nil => intro b _ _ _; rfl
  | cons a t ih =>
      intro b hchain hws hhead
      obtain ⟨hpair, htail⟩ := List.chain'_cons'.mp hchain
      by_cases ha : isPySpace a = true
      · have hb : b = false := by
          cases b with
          | true =>
              have := hhead rfl a (by simp)
              rw [this] at ha
              cases ha
          | false => rfl
        subst hb
        have haa : a = ' ' := hws a (by simp) ha
        rw [collapseWS_cons_ws_false a t ha, haa]
        congr 1
        apply ih true htail
        · intro c hc hcw
          exact hws c (List.mem_cons_of_mem _ hc) hcw
        · intro _ c hc
          rcases hpair c hc with h1 | h2
          · rw [ha] at h1; cases h1
          · exact h2
      · rw [collapseWS_cons_not_ws a t b (by simpa using ha)]
        congr 1
        apply ih false htail
        · intro c hc hcw
          exact hws c (List.mem_cons_of_mem _ hc) hcw
        · intro h; cases h

theorem dropWhile_eq_self_of_headNotWS (l : List Char) (h : headNotWS l) :
    l.dropWhile isPySpace = l := by
  cases l with
  | nil => rfl
  | cons a t =>
      have ha : isPySpace a = false := h a (by simp)
      rw [List.dropWhile_cons_of_neg (by simp [ha])]

theorem pyStrip_eq_self (l : List Char) (h1 : headNotWS l) (h2 : lastNotWS l) :
    pyStrip l = l := by
  unfold pyStrip
  rw [dropWhile_eq_self_of_headNotWS l h1]
  have hrev : headNotWS l.reverse := by
    intro c hc
    rw [List.head?_reverse] at hc
    exact h2 c hc
  rw [dropWhile_eq_self_of_headNotWS l.reverse hrev, List.reverse_reverse]

theorem compress_content_chain (s : List Char) :
    (compress_content s).Chain' noTwoWS :=
  chain'_pyStrip _ (collapseWS_chain s false)

theorem compress_content_headNotWS (s : List Char) :
    headNotWS (compress_content s) :=
  headNotWS_pyStrip _

theorem compress_content_lastNotWS (s : List Char) :
    lastNotWS (compress_content s) :=
  lastNotWS_pyStrip _

theorem compress_content_allWSSpace (s : List Char) :
    allWSSpace (compress_content s) := by
  intro c hc hcw
  exact mem_collapseWS_space s false c (mem_pyStrip _ c hc) hcw

theorem compress_content_idem (s : List Char) :
    compress_content (compress_content s) = compress_content s := by
  have h1 : collapseWS (compress_content s) false = compress_content s :=
    collapseWS_fixed (compress_content s) false (compress_content_chain s)
      (compress_content_allWSSpace s) (fun h => by cases h)
  have h2 : pyStrip (compress_content s) = compress_content s :=
    pyStrip_eq_self _ (compress_content_headNotWS s)
      (compress_content_lastNotWS s)
  show pyStrip (collapseWS (compress_content s) false) = compress_content s
  rw [h1, h2]

/-! ### Lemmas about timestamp normalization -/

theorem normalize_timestamp_offset (dt : DateTime) :
    (normalize_timestamp dt).offset = none := by
  cases dt with
  | mk w o => cases o <;> rfl

theorem normalize_timestamp_wall (dt : DateTime) :
    (normalize_timestamp dt).wall = utcInstant dt := by
  cases dt with
  | mk w o => cases o <;> simp [normalize_timestamp, utcInstant]

theorem normalize_timestamp_naive (dt : DateTime) (h : dt.offset = none) :
    normalize_timestamp dt = dt := by
  cases dt with
  | mk w o =>
      cases o with
      | none => rfl
      | some x => cases h

theorem normalize_timestamp_idem (dt : DateTime) :
    normalize_timestamp (normalize_timestamp dt) = normalize_timestamp dt :=
  normalize_timestamp_naive _ (normalize_timestamp_offset dt)

/-! ### Claim theorems -/

/-- C1: for every stored set of snapshots and candidate
(fileName, filePath, normalizedTimestamp), the duplicate lookup returns
a stored snapshot iff some stored snapshot matches the candidate
exactly on fileName and filePath with timestamp in the closed window
around the normalized timestamp; any returned snapshot is a stored
match with the latest timestamp among all matches, and the lookup
returns none exactly when no snapshot matches. -/
theorem claim_C1_findDuplicate (rows : List TrackedFile)
    (fileName filePath : String) (ts : DateTime) :
    (findDuplicate rows fileName filePath ts = none ↔
      ∀ f ∈ rows, ¬ dupMatch fileName filePath ts f) ∧
    (∀ g, findDuplicate rows fileName filePath ts = some g →
      g ∈ rows ∧ dupMatch fileName filePath ts g ∧
      ∀ f ∈ rows, dupMatch fileName filePath ts f →
        f.timestamp.wall ≤ g.timestamp.wall) :=
  ⟨findDuplicate_eq_none_iff rows fileName filePath ts,
   fun g h => findDuplicate_eq_some rows fileName filePath ts g h⟩

/-- Witness for C1 at a concrete store and candidate 4 seconds after
the stored row. -/
theorem claim_C1_witness :
    insertedRow emptySt pA "K1" ∈ stA.rows ∧
    dupMatch "a.py" "/tmp/a.py" (dtNaive 104) (insertedRow emptySt pA "K1") ∧
    ∀ f ∈ stA.rows, dupMatch "a.py" "/tmp/a.py" (dtNaive 104) f →
      f.timestamp.wall ≤ (insertedRow emptySt pA "K1").timestamp.wall :=
  (claim_C1_findDuplicate stA.rows "a.py" "/tmp/a.py" (dtNaive 104)).2
    (insertedRow emptySt pA "K1") (by decide)

/-- C2: when the duplicate lookup finds an existing snapshot, the
create call returns it with status 200 and the store is unchanged;
otherwise the call appends exactly one new row and returns it with
status 201. -/
theorem claim_C2_create_frame (st : St) (p : FileCreate) (k : String) :
    (∀ e, findDuplicate st.rows p.fileName p.filePath
        (normalize_timestamp p.timestamp) = some e →
      create_tracked_file st p k none =
        (CreateOut.ok 200 "File snapshot already stored"
          (FileResponse.ofRow e), st)) ∧
    (findDuplicate st.rows p.fileName p.filePath
        (normalize_timestamp p.timestamp) = none →
      (create_tracked_file st p k none).2.rows =
        st.rows ++ [insertedRow st p k] ∧
      (create_tracked_file st p k none).1 =
        CreateOut.ok 201 "File snapshot created"
          (FileResponse.ofRow (insertedRow st p k))) := by
  constructor
  · intro e he
    exact create_tracked_file_dup st p k none e he
  · intro h
    rw [create_tracked_file_new st p k h]
    exact ⟨rfl, rfl⟩

/-- Witness for C2: a duplicate call and a fresh call at concrete
inputs. -/
theorem claim_C2_witness :
    create_tracked_file stA pB "K2" none =
      (CreateOut.ok 200 "File snapshot already stored"
        (FileResponse.ofRow (insertedRow emptySt pA "K1")), stA) ∧
    (create_tracked_file emptySt pA "K1" none).2.rows =
      emptySt.rows ++ [insertedRow emptySt pA "K1"] := by
  constructor
  · exact (claim_C2_create_frame stA pB "K2").1 (insertedRow emptySt pA "K1")
      (by decide)
  · exact ((claim_C2_create_frame emptySt pA "K1").2 (by decide)).1

/-- C4: compressContent is idempotent, and its result has no two
adjacent whitespace characters and no leading or trailing whitespace
(the function replaces each maximal whitespace run with one space and
trims, as embedded in `collapseWS` and `pyStrip`). -/
theorem claim_C4_compress_content (s : List Char) :
    compress_content (compress_content s) = compress_content s ∧
    (compress_content s).Chain' noTwoWS ∧
    headNotWS (compress_content s) ∧
    lastNotWS (compress_content s) :=
  ⟨compress_content_idem s, compress_content_chain s,
   compress_content_headNotWS s, compress_content_lastNotWS s⟩

/-- Witness for C4 at a concrete raw text with tabs, runs of spaces
and newlines. -/
theorem claim_C4_witness :
    compress_content (compress_content " x \t  y\n\nz ".toList) =
      compress_content " x \t  y\n\nz ".toList ∧
    isPySpace 'x' = false ∧ isPySpace 'z' = false := by
  have h := claim_C4_compress_content " x \t  y\n\nz ".toList
  exact ⟨h.1, h.2.2.1 'x' (by decide), h.2.2.2 'z' (by decide)⟩

/-- C5: normalizeTimestamp always returns a timezone-naive value whose
wall clock is the UTC-equivalent instant of the input; naive inputs are
returned unchanged and the function is idempotent. -/
theorem claim_C5_normalize_timestamp (dt : DateTime) :
    (normalize_timestamp dt).offset = none ∧
    (normalize_timestamp dt).wall = utcInstant dt ∧
    (dt.offset = none → normalize_timestamp dt = dt) ∧
    normalize_timestamp (normalize_timestamp dt) = normalize_timestamp dt :=
  ⟨normalize_timestamp_offset dt, normalize_timestamp_wall dt,
   normalize_timestamp_naive dt, normalize_timestamp_idem dt⟩

/-- Witness for C5 at a naive and at an offset-carrying timestamp. -/
theorem claim_C5_witness :
    normalize_timestamp (dtNaive 100) = dtNaive 100 ∧
    (normalize_timestamp (dtAware 100 2)).offset = none ∧
    (normalize_timestamp (dtAware 100 2)).wall = utcInstant (dtAware 100 2) := by
  have h1 := claim_C5_normalize_timestamp (dtNaive 100)
  have h2 := claim_C5_normalize_timestamp (dtAware 100 2)
  exact ⟨h1.2.2.1 rfl, h2.1, h2.2.1⟩

/-- C8: a persistence-layer fault at commit time on the insert path is
rolled back (the resulting store is exactly the pre-call store, so the
attempted insert leaves no row) and the caller gets HTTP 500 with
detail Failed to save file followed by the cause. -/
theorem claim_C8_fault_rollback (st : St) (p : FileCreate) (k : String)
    (cause : String)
    (h : findDuplicate st.rows p.fileName p.filePath
        (normalize_timestamp p.timestamp) = none) :
    create_tracked_file st p k (some cause) =
      (CreateOut.err 500 ("Failed to save file: " ++ cause), st) :=
  create_tracked_file_fault st p k cause h

/-- Witness for C8 at a concrete store and cause. -/
theorem claim_C8_witness :
    create_tracked_file emptySt pA "K1" (some "db down") =
      (CreateOut.err 500 ("Failed to save file: " ++ "db down"), emptySt) :=
  claim_C8_fault_rollback emptySt pA "K1" "db down" rfl

/-- C3: the duplicate decision never depends on content.  For any two
create calls with the same fileName and filePath whose normalized
timestamps are within the window (with no constraint whatsoever on the
two contents, which may differ arbitrarily), if the first call inserts
then the second call returns an already-stored snapshot with status 200
and leaves the store exactly as the first call left it, so the second
call's content is never stored. -/
theorem claim_C3_content_blind (st : St) (p1 p2 : FileCreate) (k1 k2 : String)
    (hname : p2.fileName = p1.fileName) (hpath : p2.filePath = p1.filePath)
    (hfirst : findDuplicate st.rows p1.fileName p1.filePath
        (normalize_timestamp p1.timestamp) = none)
    (hwin : |(normalize_timestamp p2.timestamp).wall -
        (normalize_timestamp p1.timestamp).wall| ≤ dedupWindow) :
    ∃ e, e ∈ (create_tracked_file st p1 k1 none).2.rows ∧
      create_tracked_file (create_tracked_file st p1 k1 none).2 p2 k2 none =
        (CreateOut.ok 200 "File snapshot already stored" (FileResponse.ofRow e),
         (create_tracked_file st p1 k1 none).2) := by
  have hrows : (create_tracked_file st p1 k1 none).2.rows =
      st.rows ++ [insertedRow st p1 k1] := by
    rw [create_tracked_file_new st p1 k1 hfirst]
  have hmemrow : insertedRow st p1 k1 ∈ (create_tracked_file st p1 k1 none).2.rows := by
    rw [hrows]
    exact List.mem_append_right _ (by simp)
  have hmatch : dupMatch p2.fileName p2.filePath
      (normalize_timestamp p2.timestamp) (insertedRow st p1 k1) := by
    obtain ⟨h1, h2⟩ := abs_le.mp hwin
    refine ⟨by simp [insertedRow, hname], by simp [insertedRow, hpath], ?_, ?_⟩
    · show (normalize_timestamp p2.timestamp).wall - dedupWindow ≤
        (insertedRow st p1 k1).timestamp.wall
      simp only [insertedRow]
      linarith
    · show (insertedRow st p1 k1).timestamp.wall ≤
        (normalize_timestamp p2.timestamp).wall + dedupWindow
      simp only [insertedRow]
      linarith
  have hne : (create_tracked_file st p1 k1 none).2.rows.filter
      (dupMatchB p2.fileName p2.filePath (normalize_timestamp p2.timestamp)) ≠ [] :=
    List.ne_nil_of_mem (List.mem_filter.mpr
      ⟨hmemrow, (dupMatchB_iff _ _ _ _).mpr hmatch⟩)
  obtain ⟨e, he⟩ : ∃ e, findDuplicate (create_tracked_file st p1 k1 none).2.rows
      p2.fileName p2.filePath (normalize_timestamp p2.timestamp) = some e := by
    cases hfd : findDuplicate (create_tracked_file st p1 k1 none).2.rows
        p2.fileName p2.filePath (normalize_timestamp p2.timestamp) with
    | none =>
        rw [findDuplicate, latestByTimestamp_eq_none] at hfd
        exact absurd hfd hne
    | some e => exact ⟨e, rfl⟩
  exact ⟨e, (findDuplicate_eq_some _ _ _ _ e he).1,
    create_tracked_file_dup _ p2 k2 none e he⟩

/-- Witness for C3: two concrete calls on the same file 4 seconds
apart with different contents. -/
theorem claim_C3_witness :
    ∃ e, e ∈ (create_tracked_file emptySt pA "K1" none).2.rows ∧
      create_tracked_file (create_tracked_file emptySt pA "K1" none).2 pB "K1" none =
        (CreateOut.ok 200 "File snapshot already stored" (FileResponse.ofRow e),
         (create_tracked_file emptySt pA "K1" none).2) :=
  claim_C3_content_blind emptySt pA pB "K1" "K1" (by decide) (by decide)
    (by decide) (by decide)

/-- C10: the duplicate lookup ignores the caller's API key.  Starting
from an empty store, a call under key k1 followed by a call under a
different key k2 for the same file within the window returns the
snapshot stored under k1 with status 200, leaves the store unchanged,
and no row under k2 is ever stored. -/
theorem claim_C10_dedup_ignores_key (p1 p2 : FileCreate) (k1 k2 : String)
    (hname : p2.fileName = p1.fileName) (hpath : p2.filePath = p1.filePath)
    (hwin : |(normalize_timestamp p2.timestamp).wall -
        (normalize_timestamp p1.timestamp).wall| ≤ dedupWindow)
    (hk : k1 ≠ k2) :
    (create_tracked_file emptySt p1 k1 none).2.rows =
      [insertedRow emptySt p1 k1] ∧
    (insertedRow emptySt p1 k1).key = k1 ∧
    create_tracked_file (create_tracked_file emptySt p1 k1 none).2 p2 k2 none =
      (CreateOut.ok 200 "File snapshot already stored"
        (FileResponse.ofRow (insertedRow emptySt p1 k1)),
       (create_tracked_file emptySt p1 k1 none).2) ∧
    ((create_tracked_file (create_tracked_file emptySt p1 k1 none).2 p2 k2 none).2.rows.filter
      (fun f => f.key == k2)) = [] := by
  have hfirst : findDuplicate emptySt.rows p1.fileName p1.filePath
      (normalize_timestamp p1.timestamp) = none := rfl
  have hrows : (create_tracked_file emptySt p1 k1 none).2.rows =
      [insertedRow emptySt p1 k1] := by
    rw [create_tracked_file_new emptySt p1 k1 hfirst]
    rfl
  have hmatch : dupMatch p2.fileName p2.filePath
      (normalize_timestamp p2.timestamp) (insertedRow emptySt p1 k1) := by
    obtain ⟨h1, h2⟩ := abs_le.mp hwin
    refine ⟨by simp [insertedRow, hname], by simp [insertedRow, hpath], ?_, ?_⟩
    · show (normalize_timestamp p2.timestamp).wall - dedupWindow ≤
        (insertedRow emptySt p1 k1).timestamp.wall
      simp only [insertedRow]
      linarith
    · show (insertedRow emptySt p1 k1).timestamp.wall ≤
        (normalize_timestamp p2.timestamp).wall + dedupWindow
      simp only [insertedRow]
      linarith
  have hfd : findDuplicate (create_tracked_file emptySt p1 k1 none).2.rows
      p2.fileName p2.filePath (normalize_timestamp p2.timestamp) =
      some (insertedRow emptySt p1 k1) := by
    rw [findDuplicate, hrows]
    have hb : dupMatchB p2.fileName p2.filePath
        (normalize_timestamp p2.timestamp) (insertedRow emptySt p1 k1) = true :=
      (dupMatchB_iff _ _ _ _).mpr hmatch
    simp [List.filter, hb, latestByTimestamp, latestStep]
  have hdup := create_tracked_file_dup
    (create_tracked_file emptySt p1 k1 none).2 p2 k2 none _ hfd
  refine ⟨hrows, rfl, hdup, ?_⟩
  rw [hdup]
  show ((create_tracked_file emptySt p1 k1 none).2.rows.filter
    (fun f => f.key == k2)) = []
  rw [hrows]
  have hkey : ((insertedRow emptySt p1 k1).key == k2) = false := by
    simp [insertedRow, hk]
  simp [List.filter, hkey]

/-- Witness for C10: concrete calls under keys K1 and K2, 4 seconds
apart. -/
theorem claim_C10_witness :
    (create_tracked_file emptySt pA "K1" none).2.rows =
      [insertedRow emptySt pA "K1"] ∧
    (insertedRow emptySt pA "K1").key = "K1" ∧
    create_tracked_file (create_tracked_file emptySt pA "K1" none).2 pB "K2" none =
      (CreateOut.ok 200 "File snapshot already stored"
        (FileResponse.ofRow (insertedRow emptySt pA "K1")),
       (create_tracked_file emptySt pA "K1" none).2) ∧
    ((create_tracked_file (create_tracked_file emptySt pA "K1" none).2 pB "K2" none).2.rows.filter
      (fun f => f.key == "K2")) = [] :=
  claim_C10_dedup_ignores_key pA pB "K1" "K2" (by decide) (by decide)
    (by decide) (by decide)

/-- C6: the fresh store satisfies the row invariant, every create call
(with or without a persistence fault) preserves it, and under the
invariant every stored row has a timezone-naive timestamp that is the
normalization of some client timestamp and a content that is the
compression image of some raw text, hence contains no two adjacent
whitespace characters and no leading or trailing whitespace. -/
theorem claim_C6_store_invariant :
    Inv emptySt ∧
    (∀ st p k fault, Inv st → Inv (create_tracked_file st p k fault).2) ∧
    (∀ st, Inv st → ∀ f ∈ st.rows,
      f.timestamp.offset = none ∧
      f.fullContent.Chain' noTwoWS ∧
      headNotWS f.fullContent ∧
      lastNotWS f.fullContent) := by
  refine ⟨?_, ?_, ?_⟩
  · intro f hf
    simp [emptySt] at hf
  · intro st p k fault hinv
    cases hfd : findDuplicate st.rows p.fileName p.filePath
        (normalize_timestamp p.timestamp) with
    | some e =>
        rw [create_tracked_file_dup st p k fault e hfd]
        exact hinv
    | none =>
        cases fault with
        | some cause =>
            rw [create_tracked_file_fault st p k cause hfd]
            exact hinv
        | none =>
            rw [create_tracked_file_new st p k hfd]
            intro f hf
            rcases List.mem_append.mp hf with hf' | hf'
            · exact hinv f hf'
            · rw [List.mem_singleton.mp hf']
              exact ⟨⟨p.fullContent, rfl⟩, ⟨p.timestamp, rfl⟩⟩
  · intro st hinv f hf
    obtain ⟨⟨raw, hc⟩, ⟨dt, ht⟩⟩ := hinv f hf
    rw [hc, ht]
    exact ⟨normalize_timestamp_offset dt, compress_content_chain raw,
      compress_content_headNotWS raw, compress_content_lastNotWS raw⟩

/-- Witness for C6: the invariant holds at a concrete store and yields
the structural facts for its row. -/
theorem claim_C6_witness :
    Inv stA ∧
    (insertedRow emptySt pA "K1").timestamp.offset = none ∧
    (insertedRow emptySt pA "K1").fullContent.Chain' noTwoWS := by
  have h := claim_C6_store_invariant
  have h1 : Inv stA := h.2.1 emptySt pA "K1" none h.1
  have h2 := h.2.2 stA h1 (insertedRow emptySt pA "K1") (by decide)
  exact ⟨h1, h2.1, h2.2.1⟩

/-- C7: the list endpoint returns exactly the rows whose key equals the
given API key, sorted by created_at descending (insertion order, not
the client timestamp), with an empty data sequence and status 200 when
nothing matches. -/
theorem claim_C7_list_spec (st : St) (k : String) :
    ∃ rows : List TrackedFile,
      (list_tracked_files st k).data = rows.map FileResponse.ofRow ∧
      rows.Perm (st.rows.filter (fun f => f.key == k)) ∧
      rows.Sorted createdAtDesc ∧
      (∀ f, f ∈ rows ↔ f ∈ st.rows ∧ f.key = k) ∧
      ((∀ f ∈ st.rows, f.key ≠ k) → (list_tracked_files st k).data = []) ∧
      (list_tracked_files st k).status = 200 := by
  refine ⟨(st.rows.filter (fun f => f.key == k)).insertionSort createdAtDesc,
    by rfl, List.perm_insertionSort _ _, List.sorted_insertionSort _ _, ?_, ?_, rfl⟩
  · intro f
    rw [(List.perm_insertionSort createdAtDesc _).mem_iff, List.mem_filter]
    simp
  · intro h
    have hnil : st.rows.filter (fun f => f.key == k) = [] :=
      List.filter_eq_nil_iff.mpr (fun f hf => by simp [h f hf])
    simp [list_tracked_files, hnil]

/-- Witness for C7 at a concrete two-row store and a key matching no
row. -/
theorem claim_C7_witness :
    (list_tracked_files stB "K9").data = [] ∧
    (list_tracked_files stB "K9").status = 200 := by
  obtain ⟨rows, hdata, hperm, hsort, hmem, hempty, hstatus⟩ :=
    claim_C7_list_spec stB "K9"
  exact ⟨hempty (by decide), hstatus⟩

/-- C9 counterexample: the claim says that whenever the x-api-key
header is present the extracted key is the header value; but for the
present-and-empty header the code rejects the request with 401 and
extracts nothing, because `if not x_api_key` treats the empty string as
missing. -/
theorem claim_C9_counterexample :
    require_api_key (some "") ≠ Except.ok "" ∧
    handle_create emptySt (some "") pA none =
      (CreateOut.err 401 "Missing x-api-key header", emptySt) := by
  constructor
  · intro h
    simp [require_api_key] at h
  · rfl

/-- C9 amended: a request with the x-api-key header absent gets 401
and the store is neither changed nor read; a request whose header is
present with a non-empty value has that value extracted as the key; a
present-but-empty header is also rejected with 401. -/
theorem claim_C9_unauthorized (st : St) (p : FileCreate)
    (fault : Option String) (k : String) :
    handle_create st none p fault =
      (CreateOut.err 401 "Missing x-api-key header", st) ∧
    handle_list st none = ListResult.err 401 "Missing x-api-key header" ∧
    (∀ st', handle_list st' none = handle_list st none) ∧
    (k ≠ "" → require_api_key (some k) = Except.ok k ∧
      handle_create st (some k) p fault = create_tracked_file st p k fault) ∧
    require_api_key (some "") = Except.error (401, "Missing x-api-key header") := by
  refine ⟨rfl, rfl, fun st' => rfl, ?_, rfl⟩
  intro hk
  have hreq : require_api_key (some k) = Except.ok k := by
    simp [require_api_key, hk]
  exact ⟨hreq, by simp [handle_create, hreq]⟩

/-- Witness for C9 at the empty store with key K1. -/
theorem claim_C9_witness :
    handle_create emptySt none pA none =
      (CreateOut.err 401 "Missing x-api-key header", emptySt) ∧
    require_api_key (some "K1") = Except.ok "K1" := by
  have h := claim_C9_unauthorized emptySt pA none "K1"
  exact ⟨h.1, (h.2.2.2.1 (by decide)).1⟩

end CodeTracker
